import Mathlib

/-
Verification of the offboard position-control test harness
(uavOffboardPosCtrl.py) against its natural-language specification.

Modelling conventions:
- Python floats are modelled as exact rationals (ℚ); a possibly-NaN float
  is modelled as `Option ℚ` with `none` standing for NaN.
- `np.linalg.norm` of a 3-vector is `Real.sqrt` of the sum of squared
  components; comparisons involving the norm live in `Prop`.
- ROS sleep/publish calls that may raise are modelled by explicit
  error values; an uncaught exception terminates the modelled loop.
- Loop indices count iterations; `xrange(n)` for an int `n` iterates
  `n.toNat` times (empty when `n` is not positive).
-/

namespace UavOffboardPosCtrl

/-! ## ConvergenceChecker: `is_at_position` (src lines 60-76) -/

/-- Embeds `is_at_position(x, y, z, offset)`: `np.linalg.norm(desired - pos) < offset`
where `desired = (x, y, z)` and `pos = (px, py, pz)` is the latest reported
local position. The norm of the 3-vector of differences is the square root
of the sum of the squared components. -/
def is_at_position (x y z px py pz offset : ℚ) : Prop :=
  Real.sqrt (((x - px) ^ 2 + (y - py) ^ 2 + (z - pz) ^ 2 : ℚ) : ℝ) < (offset : ℝ)

/-- A float that may be NaN: `none` is NaN, `some q` a finite value. -/
abbrev Flt : Type := Option ℚ

/-- IEEE-style subtraction: NaN propagates. -/
def fsub (a b : Flt) : Flt :=
  a.bind fun av => b.map fun bv => av - bv

/-- IEEE-style squaring: NaN propagates. -/
def fsq (a : Flt) : Flt :=
  a.map fun av => av ^ 2

/-- IEEE-style addition: NaN propagates. -/
def fadd (a b : Flt) : Flt :=
  a.bind fun av => b.map fun bv => av + bv

/-- IEEE-style comparison `sqrt s < r`: false whenever either side is NaN
(`sqrt` of NaN is NaN, and every comparison against NaN is false). -/
def fnorm_lt (s r : Flt) : Prop :=
  ∃ sv rv, s = some sv ∧ r = some rv ∧ Real.sqrt (sv : ℝ) < (rv : ℝ)

/-- `is_at_position` on possibly-NaN floats: the same norm computation as the
source with NaN propagation through the numpy subtraction, squares, sum and
square root, and an IEEE comparison at the end. -/
def is_at_position_f (x y z px py pz offset : Flt) : Prop :=
  fnorm_lt (fadd (fadd (fsq (fsub x px)) (fsq (fsub y py))) (fsq (fsub z pz))) offset

/-! ## `reach_position` polling loop (src lines 97-118) -/

/-- Outcome of the `for i in xrange(timeout * loop_freq)` polling loop:
whether the loop set `reached`, how many convergence checks ran, how many
sleeps were entered, the index `i` at which the loop broke (if any), and the
index whose sleep raised `rospy.ROSException` (if any; the code then calls
`self.fail(e)`, aborting the loop). -/
structure LoopOutcome where
  reached : Bool
  checks : ℕ
  sleeps : ℕ
  hitIndex : Option ℕ
  failedSleep : Option ℕ
deriving DecidableEq, Repr

/-- One pass of the polling loop starting at index `i` with `n` iterations
left: check `is_at_position` first (abstracted as the poll trace `f`); on
true, break before sleeping; otherwise sleep (`sleepOk i = false` models
`rate.sleep()` raising `rospy.ROSException`, on which the code calls
`self.fail(e)` and the loop aborts). -/
def reachAux (f : ℕ → Bool) (sleepOk : ℕ → Bool) : ℕ → ℕ → LoopOutcome
  | _, 0 => ⟨false, 0, 0, none, none⟩
  | i, n + 1 =>
    if f i then ⟨true, 1, 0, some i, none⟩
    else if sleepOk i then
      let r := reachAux f sleepOk (i + 1) n
      ⟨r.reached, r.checks + 1, r.sleeps + 1, r.hitIndex, r.failedSleep⟩
    else ⟨false, 1, 1, none, some i⟩

/-- `loop_freq = 2  # Hz` (src line 98). -/
def loop_freq : ℤ := 2

/-- `reach_position`'s polling phase: `for i in xrange(timeout * loop_freq)`
(src line 101), with `f i` the value of the `is_at_position` call at poll
`i` and `sleepOk i` whether the sleep at poll `i` completes normally. -/
def reach_position (f : ℕ → Bool) (sleepOk : ℕ → Bool) (timeout : ℤ) : LoopOutcome :=
  reachAux f sleepOk 0 (timeout * loop_freq).toNat

/-- The elapsed seconds reported on success: `i / loop_freq` with true
division (src line 106, under `from __future__ import division`). -/
def reported_seconds (r : LoopOutcome) : Option ℚ :=
  r.hitIndex.map fun i => (i : ℚ) / 2

/-- The values interpolated into the `assertTrue` failure message
(src lines 115-118): the three coordinates of the current local position and
the timeout. The desired position `(dx, dy, dz)` is in scope at the call but
does not appear among the format arguments. -/
def timeout_fail_report (dx dy dz ax ay az : ℚ) (timeout : ℤ) : List ℚ :=
  [ax, ay, az, (timeout : ℚ)]

/-- How a `reach_position` call ends: loop break on convergence; a sleep
failure surfaced through `self.fail(e)`; or the final `assertTrue` firing
with the timeout message. -/
inductive ReachOutcome where
  | success (hitIndex : ℕ)
  | sleepFailure (atIndex : ℕ)
  | timeoutFailure (report : List ℚ)
deriving DecidableEq, Repr

/-- Full result of `reach_position` including the failure report, with
`(dx, dy, dz)` the desired position and `(ax, ay, az)` the last-known local
position at assertion time. -/
def reach_position_result (f sleepOk : ℕ → Bool) (dx dy dz ax ay az : ℚ)
    (timeout : ℤ) : ReachOutcome :=
  let r := reach_position f sleepOk timeout
  match r.failedSleep with
  | some i => ReachOutcome.sleepFailure i
  | none =>
    match r.hitIndex with
    | some k => ReachOutcome.success k
    | none => ReachOutcome.timeoutFailure (timeout_fail_report dx dy dz ax ay az timeout)

/-! ## Shared Setpoint writes (src lines 82-84 and 95) vs `send_pos` reads -/

/-- The shared `self.pos` message: position and orientation quaternion.
Written by `reach_position`, concurrently read by the `send_pos` thread. -/
structure Setpoint where
  x : ℚ
  y : ℚ
  z : ℚ
  ox : ℚ
  oy : ℚ
  oz : ℚ
  ow : ℚ
deriving DecidableEq, Repr

/-- The sequence of separate assignments `reach_position` performs on the
shared `self.pos`: `pose.position.x`, `.y`, `.z` (src lines 82-84), then
the single reference assignment of the orientation quaternion
`quaternion_from_euler(0, 0, 0) = (0, 0, 0, 1)` (src lines 92-95). Each
list element is one atomic store; there is no lock around the sequence. -/
def setpoint_write_steps (wx wy wz : ℚ) : List (Setpoint → Setpoint) :=
  [fun s => { s with x := wx },
   fun s => { s with y := wy },
   fun s => { s with z := wz },
   fun s => { s with ox := 0, oy := 0, oz := 0, ow := 1 }]

/-- The states a concurrent reader (`send_pos`) can observe: before the
first store, between any two consecutive stores, and after the last. -/
def observable_states : Setpoint → List (Setpoint → Setpoint) → List Setpoint
  | s, [] => [s]
  | s, f :: fs => s :: observable_states (f s) fs

/-- The state after all stores have executed. -/
def apply_steps : Setpoint → List (Setpoint → Setpoint) → Setpoint
  | s, [] => s
  | s, f :: fs => apply_steps (f s) fs

/-! ## `send_pos` streaming loop (src lines 47-58) -/

/-- Exceptions a ROS call in `send_pos` can raise:
`interrupt` is `rospy.ROSInterruptException`, `other` any other error. -/
inductive RosError where
  | interrupt
  | other
deriving DecidableEq, Repr

/-- The `try: rate.sleep() except rospy.ROSInterruptException: pass` block
(src lines 55-58): an interrupt raised during the sleep is caught and
discarded; any other error propagates. -/
def sleep_guarded : Option RosError → Option RosError
  | some RosError.interrupt => none
  | some RosError.other => some RosError.other
  | none => none

/-- One iteration of the `send_pos` body (src lines 53-58): stamp and
publish, then the guarded sleep. The publish call is NOT inside the
try block, so an error it raises propagates immediately and the sleep
never runs. Returns `none` when the iteration completes and the loop
continues, `some e` when exception `e` escapes the loop body. -/
def send_pos_iteration (pubErr sleepErr : Option RosError) : Option RosError :=
  match pubErr with
  | some e => some e
  | none => sleep_guarded sleepErr

/-- The `while not rospy.is_shutdown()` loop of `send_pos` (src line 52),
run with explicit fuel: at iteration `i` the guard reads `shutdown i`; on
true the loop exits normally, reporting the number of completed iterations
`Except.ok i`; otherwise the body runs and an escaping exception ends the
thread with `Except.error e`. `none` means the fuel ran out with the loop
still running. -/
def send_pos_run (shutdown : ℕ → Bool) (pubErr sleepErr : ℕ → Option RosError) :
    ℕ → ℕ → Option (Except RosError ℕ)
  | _, 0 => none
  | i, fuel + 1 =>
    if shutdown i then some (Except.ok i)
    else
      match send_pos_iteration (pubErr i) (sleepErr i) with
      | some e => some (Except.error e)
      | none => send_pos_run shutdown pubErr sleepErr (i + 1) fuel

/-! ## `test_posctrl` mission (src lines 123-148) -/

/-- The waypoint plan of `test_posctrl` (src lines 138-139). -/
def mission_positions : List (ℚ × ℚ × ℚ) :=
  [(0, 0, 0), (50, 50, 20), (50, -50, 20), (-50, -50, 20), (0, 0, 20)]

/-- The `for i in xrange(len(positions))` loop (src lines 141-144): each
waypoint in order runs `reach_position` with timeout 45; a failed waypoint
raises out of the test, so later waypoints are not attempted. `atPos wp i`
is the poll trace of `is_at_position` for waypoint `wp`; sleeps are modelled
as completing normally. Returns the list of attempted waypoints with their
loop outcomes, and whether the mission loop completed. -/
def run_mission_aux (atPos : ℚ × ℚ × ℚ → ℕ → Bool) :
    List (ℚ × ℚ × ℚ) → List ((ℚ × ℚ × ℚ) × LoopOutcome) × Bool
  | [] => ([], true)
  | wp :: rest =>
    let r := reach_position (atPos wp) (fun _ => true) 45
    if r.reached then
      let tail := run_mission_aux atPos rest
      ((wp, r) :: tail.1, tail.2)
    else ([(wp, r)], false)

/-- The waypoint phase of `test_posctrl` applied to the mission plan. -/
def test_posctrl_mission (atPos : ℚ × ℚ × ℚ → ℕ → Bool) :
    List ((ℚ × ℚ × ℚ) × LoopOutcome) × Bool :=
  run_mission_aux atPos mission_positions

/-! ## Helper lemmas about the polling loop -/

lemma reachAux_never (f sleepOk : ℕ → Bool) (hf : ∀ i, f i = false)
    (hs : ∀ i, sleepOk i = true) :
    ∀ n i, reachAux f sleepOk i n = ⟨false, n, n, none, none⟩ := by
  intro n
  induction n with
  | zero => intro i; rfl
  | succ n ih =>
    intro i
    simp [reachAux, hf i, hs i, ih (i + 1)]

lemma reachAux_first_hit (f sleepOk : ℕ → Bool) (hs : ∀ i, sleepOk i = true) :
    ∀ n i, (∃ j, j < n ∧ f (i + j) = true) →
      ∃ k, i ≤ k ∧ k < i + n ∧ f k = true ∧ (∀ j, i ≤ j → j < k → f j = false) ∧
        reachAux f sleepOk i n = ⟨true, k - i + 1, k - i, some k, none⟩ := by
  intro n
  induction n with
  | zero =>
    rintro i ⟨j, hj, _⟩
    omega
  | succ n ih =>
    rintro i ⟨j, hj, hfj⟩
    by_cases hfi : f i = true
    · refine ⟨i, le_refl i, by omega, hfi, fun j2 h1 h2 => by omega, ?_⟩
      simp [reachAux, hfi]
    · have hfi2 : f i = false := by simpa using hfi
      obtain ⟨j2, hj2, hfj2⟩ : ∃ j2, j2 < n ∧ f (i + 1 + j2) = true := by
        rcases j with _ | j3
        · rw [Nat.add_zero] at hfj
          rw [hfj] at hfi2
          cases hfi2
        · exact ⟨j3, by omega, by rw [show i + 1 + j3 = i + (j3 + 1) by omega]; exact hfj⟩
      obtain ⟨k, hk1, hk2, hk3, hk4, hk5⟩ := ih (i + 1) ⟨j2, hj2, hfj2⟩
      refine ⟨k, by omega, by omega, hk3, ?_, ?_⟩
      · intro j3 h1 h2
        rcases Nat.eq_or_lt_of_le h1 with h | h
        · rw [← h]
          exact hfi2
        · exact hk4 j3 h h2
      · simp [reachAux, hfi2, hs i, hk5, LoopOutcome.mk.injEq]
        omega

lemma reach_position_45_first_hit (f : ℕ → Bool) (h : ∃ j, j < 90 ∧ f j = true) :
    ∃ k, k < 90 ∧ f k = true ∧ (∀ j, j < k → f j = false) ∧
      reach_position f (fun _ => true) 45 = ⟨true, k + 1, k, some k, none⟩ := by
  obtain ⟨k, hk1, hk2, hk3, hk4, hk5⟩ :=
    reachAux_first_hit f (fun _ => true) (fun _ => rfl) 90 0 (by simpa using h)
  refine ⟨k, by omega, hk3, fun j hj => hk4 j (Nat.zero_le j) hj, ?_⟩
  have h90 : ((45 : ℤ) * loop_freq).toNat = 90 := by decide
  rw [reach_position, h90]
  simpa using hk5

lemma run_mission_aux_all_reached (atPos : ℚ × ℚ × ℚ → ℕ → Bool) :
    ∀ l : List (ℚ × ℚ × ℚ),
      (∀ wp ∈ l, (reach_position (atPos wp) (fun _ => true) 45).reached = true) →
      run_mission_aux atPos l =
        (l.map fun wp => (wp, reach_position (atPos wp) (fun _ => true) 45), true) := by
  intro l
  induction l with
  | nil => intro _; rfl
  | cons wp rest ih =>
    intro h
    have h1 := h wp (List.mem_cons_self wp rest)
    simp [run_mission_aux, h1, ih fun w hw => h w (List.mem_cons_of_mem wp hw)]

lemma reach_hit_none (f sleepOk : ℕ → Bool) :
    ∀ n i, (reachAux f sleepOk i n).reached = false →
      (reachAux f sleepOk i n).hitIndex = none := by
  intro n
  induction n with
  | zero => intro i _; rfl
  | succ n ih =>
    intro i h
    by_cases hfi : f i = true
    · rw [reachAux] at h
      simp [hfi] at h
    · have hfi2 : f i = false := by simpa using hfi
      rw [reachAux] at h ⊢
      simp only [hfi2, Bool.false_eq_true, if_false]
      by_cases hsl : sleepOk i = true
      · simp only [hsl, if_true]
        simp only [hfi2, Bool.false_eq_true, if_false, hsl, if_true] at h
        exact ih (i + 1) h
      · have hsl2 : sleepOk i = false := by simpa using hsl
        simp [hsl2]

@[simp] lemma fsub_none_left (b : Flt) : fsub none b = none := rfl

@[simp] lemma fsub_none_right (a : Flt) : fsub a none = none := by
  cases a <;> rfl

@[simp] lemma fsq_none : fsq none = none := rfl

@[simp] lemma fadd_none_left (b : Flt) : fadd none b = none := rfl

@[simp] lemma fadd_none_right (a : Flt) : fadd a none = none := by
  cases a <;> rfl

@[simp] lemma fnorm_lt_none_left (r : Flt) : ¬ fnorm_lt none r := by
  rintro ⟨sv, rv, hsv, _⟩
  cases hsv

lemma send_pos_run_exit (shutdown : ℕ → Bool) (pubErr sleepErr : ℕ → Option RosError)
    (hpub : ∀ i, pubErr i = none) (hsleep : ∀ i, sleepErr i ≠ some RosError.other) :
    ∀ n i, shutdown (i + n) = true → (∀ m, m < n → shutdown (i + m) = false) →
      send_pos_run shutdown pubErr sleepErr i (n + 1) = some (Except.ok (i + n)) := by
  intro n
  induction n with
  | zero =>
    intro i h1 _
    rw [Nat.add_zero] at h1
    simp [send_pos_run, h1]
  | succ n ih =>
    intro i h1 h2
    have h0 : shutdown i = false := by
      have := h2 0 (Nat.succ_pos n)
      simpa using this
    have hguard : send_pos_iteration (pubErr i) (sleepErr i) = none := by
      rw [hpub i, send_pos_iteration]
      rcases hs : sleepErr i with _ | e
      · rfl
      · cases e
        · rfl
        · exact absurd hs (hsleep i)
    have ha : shutdown (i + 1 + n) = true := by
      rw [show i + 1 + n = i + (n + 1) by omega]
      exact h1
    have hb : ∀ m, m < n → shutdown (i + 1 + m) = false := by
      intro m hm
      rw [show i + 1 + m = i + (m + 1) by omega]
      exact h2 (m + 1) (by omega)
    calc send_pos_run shutdown pubErr sleepErr i (n + 1 + 1)
        = send_pos_run shutdown pubErr sleepErr (i + 1) (n + 1) := by
          rw [send_pos_run, hguard]
          simp [h0]
      _ = some (Except.ok (i + 1 + n)) := ih (i + 1) ha hb
      _ = some (Except.ok (i + (n + 1))) := by
          rw [show i + 1 + n = i + (n + 1) by omega]

/-! ## Claims -/

/-- C1: the convergence check `is_at_position` returns true iff the Euclidean
distance `sqrt((x-px)^2 + (y-py)^2 + (z-pz)^2)` between desired and actual is
strictly less than the radius, and when the actual position equals the desired
position exactly it returns true for every radius > 0. -/
theorem c1_is_at_position_euclidean (x y z px py pz r : ℚ) :
    (is_at_position x y z px py pz r ↔
      Real.sqrt (((x : ℝ) - px) ^ 2 + ((y : ℝ) - py) ^ 2 + ((z : ℝ) - pz) ^ 2) < (r : ℝ))
    ∧ (px = x → py = y → pz = z → 0 < r → is_at_position x y z px py pz r) := by
  constructor
  · unfold is_at_position
    have hc : (((x - px) ^ 2 + (y - py) ^ 2 + (z - pz) ^ 2 : ℚ) : ℝ) =
        ((x : ℝ) - px) ^ 2 + ((y : ℝ) - py) ^ 2 + ((z : ℝ) - pz) ^ 2 := by
      push_cast
      ring
    rw [hc]
  · intro h1 h2 h3 hr
    subst h1
    subst h2
    subst h3
    unfold is_at_position
    simp only [sub_self, ne_eq, OfNat.ofNat_ne_zero, not_false_eq_true, zero_pow, add_zero,
      Rat.cast_zero, Real.sqrt_zero]
    exact_mod_cast hr

/-- Witness for C1 at desired = actual = (0, 0, 0) and radius 1. -/
theorem c1_witness :
    ((0 : ℚ) = 0 ∧ (0 : ℚ) < 1) ∧ is_at_position 0 0 0 0 0 0 1 :=
  ⟨⟨rfl, by norm_num⟩, (c1_is_at_position_euclidean 0 0 0 0 0 0 1).2 rfl rfl rfl (by norm_num)⟩

/-- C2: with the fixed 2 Hz check rate, if no poll ever observes convergence
(and no sleep is interrupted), `reach_position` performs exactly timeout * 2
convergence checks — none fewer, none more — and ends without `reached`,
declaring the waypoint timeout; for timeout = 45 this is 90 checks. -/
theorem c2_timeout_exact_checks (f : ℕ → Bool) (t : ℤ) (ht : 0 < t)
    (hf : ∀ i, f i = false) :
    ((reach_position f (fun _ => true) t).checks : ℤ) = t * 2 ∧
      (reach_position f (fun _ => true) t).reached = false := by
  rw [reach_position, reachAux_never f (fun _ => true) hf (fun _ => rfl)]
  refine ⟨?_, rfl⟩
  simp only [loop_freq]
  omega

/-- Witness for C2 at timeout = 45: exactly 90 checks. -/
theorem c2_witness :
    (0 : ℤ) < 45 ∧
      ((reach_position (fun _ => false) (fun _ => true) 45).checks : ℤ) = 90 ∧
      (reach_position (fun _ => false) (fun _ => true) 45).reached = false := by
  have h := c2_timeout_exact_checks (fun _ => false) 45 (by norm_num) (fun _ => rfl)
  refine ⟨by norm_num, ?_, h.2⟩
  rw [h.1]
  norm_num

/-- C9: called with timeout ≤ 0, `xrange(timeout * 2)` is empty, so the loop
body never runs — no convergence check, no sleep — and the call ends with
`reached` still false (the waypoint-timeout assertion fires), regardless of
the vehicle's actual position. -/
theorem c9_nonpositive_timeout (f sleepOk : ℕ → Bool) (t : ℤ) (ht : t ≤ 0) :
    reach_position f sleepOk t = ⟨false, 0, 0, none, none⟩ := by
  have h0 : (t * loop_freq).toNat = 0 := by
    simp only [loop_freq]
    omega
  rw [reach_position, h0]
  rfl

/-- Witness for C9: timeout 0 with the vehicle already at the position. -/
theorem c9_witness :
    (0 : ℤ) ≤ 0 ∧
      reach_position (fun _ => true) (fun _ => true) 0 = ⟨false, 0, 0, none, none⟩ :=
  ⟨le_refl 0, c9_nonpositive_timeout (fun _ => true) (fun _ => true) 0 (le_refl 0)⟩

/-- C10: the convergence check runs before the sleep in every iteration, so if
the vehicle is already within the radius at the first poll, `reach_position`
breaks at i = 0 with exactly one check and no sleep, and the reported elapsed
time `i / loop_freq` is 0 seconds. -/
theorem c10_immediate_convergence (f sleepOk : ℕ → Bool) (t : ℤ)
    (h0 : f 0 = true) (ht : 0 < t) :
    reach_position f sleepOk t = ⟨true, 1, 0, some 0, none⟩ ∧
      reported_seconds (reach_position f sleepOk t) = some 0 := by
  obtain ⟨n, hn⟩ : ∃ n, (t * loop_freq).toNat = n + 1 := by
    refine ⟨(t * loop_freq).toNat - 1, ?_⟩
    simp only [loop_freq]
    omega
  have h2 : reach_position f sleepOk t = ⟨true, 1, 0, some 0, none⟩ := by
    rw [reach_position, hn]
    simp [reachAux, h0]
  refine ⟨h2, ?_⟩
  rw [h2]
  simp [reported_seconds]

/-- C3 counterexample: desired position (50, 50, 20), last-known actual
position (1, 2, 3), timeout 45, vehicle never converging. The loop exhausts
its budget and the failure report is exactly the actual position and the
timeout: no coordinate of the desired position (here 50) appears in it, so
the report does not include the desired position as the claim states. -/
theorem c3_counterexample :
    reach_position_result (fun _ => false) (fun _ => true) 50 50 20 1 2 3 45 =
      ReachOutcome.timeoutFailure (timeout_fail_report 50 50 20 1 2 3 45) ∧
    ¬ (50 : ℚ) ∈ timeout_fail_report 50 50 20 1 2 3 45 := by
  exact ⟨rfl, by decide⟩

/-- C3 (amended): whenever `reach_position` exhausts its iteration budget
without convergence (and without a sleep failure), the waypoint-timeout
failure report includes the last-known-actual position and the configured
timeout — but, contrary to the claim, not the desired position. -/
theorem c3_timeout_report (f sleepOk : ℕ → Bool) (dx dy dz ax ay az : ℚ) (t : ℤ)
    (hr : (reach_position f sleepOk t).reached = false)
    (hs : (reach_position f sleepOk t).failedSleep = none) :
    reach_position_result f sleepOk dx dy dz ax ay az t =
      ReachOutcome.timeoutFailure (timeout_fail_report dx dy dz ax ay az t) ∧
    ax ∈ timeout_fail_report dx dy dz ax ay az t ∧
    ay ∈ timeout_fail_report dx dy dz ax ay az t ∧
    az ∈ timeout_fail_report dx dy dz ax ay az t ∧
    ((t : ℚ)) ∈ timeout_fail_report dx dy dz ax ay az t := by
  have hh : (reach_position f sleepOk t).hitIndex = none := by
    rw [reach_position] at hr ⊢
    exact reach_hit_none f sleepOk _ 0 hr
  refine ⟨?_, ?_, ?_, ?_, ?_⟩
  · simp only [reach_position_result, hs, hh]
  · simp [timeout_fail_report]
  · simp [timeout_fail_report]
  · simp [timeout_fail_report]
  · simp [timeout_fail_report]

/-- Witness for C3 (amended) at a vehicle that never converges. -/
theorem c3_witness :
    ((reach_position (fun _ => false) (fun _ => true) 45).reached = false ∧
     (reach_position (fun _ => false) (fun _ => true) 45).failedSleep = none) ∧
    (7 : ℚ) ∈ timeout_fail_report 0 0 0 7 8 9 45 :=
  ⟨⟨rfl, rfl⟩,
   (c3_timeout_report (fun _ => false) (fun _ => true) 0 0 0 7 8 9 45 rfl rfl).2.1⟩

/-- C4 counterexample: a publish failure (here a generic error raised by the
publish call with no sleep error pending) is not swallowed: the iteration
of `send_pos` propagates it instead of returning control to the loop, and
the streaming loop run terminates with that error on its first tick. -/
theorem c4_counterexample :
    send_pos_iteration (some RosError.other) none = some RosError.other ∧
    send_pos_run (fun _ => false) (fun _ => some RosError.other) (fun _ => none) 0 5 =
      some (Except.error RosError.other) ∧
    ¬ send_pos_iteration (some RosError.other) none = none :=
  ⟨rfl, rfl, fun h => Option.noConfusion h⟩

/-- C4 (amended): the try/except in `send_pos` guards only the sleep, not the
publish call: an error raised by publish escapes the loop body unchanged
(terminating the streaming loop), while an interruption of the sleep is
swallowed and the loop continues to the next tick. -/
theorem c4_publish_unguarded (e : RosError) (s : Option RosError) :
    send_pos_iteration (some e) s = some e ∧
    send_pos_iteration none (some RosError.interrupt) = none :=
  ⟨rfl, rfl⟩

/-- C5 counterexample: starting from the zeroed Setpoint and writing waypoint
(50, 50, 20), a concurrent reader can observe a state that is neither the
complete previous Setpoint nor the complete new one (e.g. new x with old y,
z and orientation): the write sequence is not atomic. -/
theorem c5_counterexample :
    ¬ (∀ s ∈ observable_states ⟨0, 0, 0, 0, 0, 0, 0⟩ (setpoint_write_steps 50 50 20),
        s = ⟨0, 0, 0, 0, 0, 0, 0⟩ ∨
        s = apply_steps ⟨0, 0, 0, 0, 0, 0, 0⟩ (setpoint_write_steps 50 50 20)) := by
  decide

/-- C5 (amended): the waypoint write is a sequence of four separate atomic
stores (x, then y, then z, then the orientation quaternion) with no lock, so
a concurrent read can observe any of the five interleaving states; in
particular, whenever the new x and y differ from the old ones, the state
after the x store is a partially-written mixture equal to neither the old
nor the new Setpoint. -/
theorem c5_write_not_atomic (s0 : Setpoint) (wx wy wz : ℚ) :
    observable_states s0 (setpoint_write_steps wx wy wz) =
      [s0, { s0 with x := wx }, { s0 with x := wx, y := wy },
       { s0 with x := wx, y := wy, z := wz },
       { s0 with x := wx, y := wy, z := wz, ox := 0, oy := 0, oz := 0, ow := 1 }] ∧
    ({ s0 with x := wx } ∈ observable_states s0 (setpoint_write_steps wx wy wz)) ∧
    (wx ≠ s0.x → wy ≠ s0.y →
      { s0 with x := wx } ≠ s0 ∧
      { s0 with x := wx } ≠ apply_steps s0 (setpoint_write_steps wx wy wz)) := by
  have hobs : observable_states s0 (setpoint_write_steps wx wy wz) =
      [s0, { s0 with x := wx }, { s0 with x := wx, y := wy },
       { s0 with x := wx, y := wy, z := wz },
       { s0 with x := wx, y := wy, z := wz, ox := 0, oy := 0, oz := 0, ow := 1 }] := rfl
  refine ⟨hobs, ?_, ?_⟩
  · rw [hobs]
    simp
  · intro h1 h2
    constructor
    · intro heq
      exact h1 (congrArg Setpoint.x heq)
    · intro heq
      have hy := congrArg Setpoint.y heq
      exact h2 hy.symm

/-- Witness for C5 (amended): zeroed Setpoint, waypoint (50, 50, 20). -/
theorem c5_witness :
    ((50 : ℚ) ≠ 0 ∧ (50 : ℚ) ≠ 0) ∧
    ((⟨50, 0, 0, 0, 0, 0, 0⟩ : Setpoint) ≠ ⟨0, 0, 0, 0, 0, 0, 0⟩ ∧
     (⟨50, 0, 0, 0, 0, 0, 0⟩ : Setpoint) ≠
       apply_steps ⟨0, 0, 0, 0, 0, 0, 0⟩ (setpoint_write_steps 50 50 20)) :=
  ⟨⟨by norm_num, by norm_num⟩,
   (c5_write_not_atomic ⟨0, 0, 0, 0, 0, 0, 0⟩ 50 50 20).2.2 (by norm_num) (by norm_num)⟩

/-- C6: if any coordinate of desired or actual is NaN, the convergence check
classifies the position as not-reached: NaN propagates through the
subtraction, squares, sum and square root, and the final IEEE comparison
against the radius is false; the computation is a total function with no
error. -/
theorem c6_nan_not_reached (x y z px py pz offset : Flt)
    (h : x = none ∨ y = none ∨ z = none ∨ px = none ∨ py = none ∨ pz = none) :
    ¬ is_at_position_f x y z px py pz offset := by
  rcases h with h | h | h | h | h | h <;> subst h <;> simp [is_at_position_f]

/-- Witness for C6: NaN in the x coordinate of the desired position. -/
theorem c6_witness :
    ((none : Flt) = none ∨ (some 0 : Flt) = none ∨ (some 0 : Flt) = none ∨
     (some 0 : Flt) = none ∨ (some 0 : Flt) = none ∨ (some 0 : Flt) = none) ∧
    ¬ is_at_position_f none (some 0) (some 0) (some 0) (some 0) (some 0) (some 1) :=
  ⟨Or.inl rfl,
   c6_nan_not_reached none (some 0) (some 0) (some 0) (some 0) (some 0) (some 1) (Or.inl rfl)⟩

/-- C7: once the shutdown signal is observed at the loop guard, `send_pos`
performs no further iterations and exits without error (within the one sleep
interval after the signal is raised), and any interruption of the sleep is
caught and never propagated: with the publish call succeeding and sleeps at
worst interrupted, the run starting at tick 0 terminates normally at the
first tick where the shutdown flag is set. -/
theorem c7_shutdown_exit (shutdown : ℕ → Bool) (pubErr sleepErr : ℕ → Option RosError)
    (k : ℕ) (hk : shutdown k = true) (hmin : ∀ m, m < k → shutdown m = false)
    (hpub : ∀ i, pubErr i = none) (hsleep : ∀ i, sleepErr i ≠ some RosError.other) :
    send_pos_run shutdown pubErr sleepErr 0 (k + 1) = some (Except.ok k) := by
  have h := send_pos_run_exit shutdown pubErr sleepErr hpub hsleep k 0
    (by simpa using hk) (by intro m hm; simpa using hmin m hm)
  simpa using h

/-- Witness for C7: shutdown raised at tick 1, every sleep interrupted. -/
theorem c7_witness :
    ((fun i => decide (1 ≤ i)) 1 = true ∧
     (∀ m, m < 1 → (fun i => decide (1 ≤ i)) m = false)) ∧
    send_pos_run (fun i => decide (1 ≤ i)) (fun _ => none)
      (fun _ => some RosError.interrupt) 0 2 = some (Except.ok 1) := by
  have hmin : ∀ m, m < 1 → (fun i => decide (1 ≤ i)) m = false := by
    intro m hm
    have hm0 : m = 0 := by omega
    subst hm0
    decide
  exact ⟨⟨by decide, hmin⟩,
    c7_shutdown_exit (fun i => decide (1 ≤ i)) (fun _ => none)
      (fun _ => some RosError.interrupt) 1 (by decide) hmin
      (fun _ => rfl) (fun i h => RosError.noConfusion (Option.some.inj h))⟩

/-- C8: the mission loop of `test_posctrl` attempts the five waypoints
(0,0,0), (50,50,20), (50,-50,20), (-50,-50,20), (0,0,20) strictly in plan
order, each exactly once with none reordered, skipped or retried, and each
waypoint's polling ends at the first convergent poll: if every waypoint
converges within its 90-poll budget, the mission loop completes, the
attempted waypoints are exactly the plan in order, and every attempt breaks
at the least poll index that converges. -/
theorem c8_mission_strict_order (atPos : ℚ × ℚ × ℚ → ℕ → Bool)
    (h : ∀ wp ∈ mission_positions, ∃ j, j < 90 ∧ atPos wp j = true) :
    (test_posctrl_mission atPos).2 = true ∧
    (test_posctrl_mission atPos).1.map Prod.fst = mission_positions ∧
    ∀ p ∈ (test_posctrl_mission atPos).1, ∃ k,
      p.2.hitIndex = some k ∧ atPos p.1 k = true ∧ ∀ j, j < k → atPos p.1 j = false := by
  have hre : ∀ wp ∈ mission_positions,
      (reach_position (atPos wp) (fun _ => true) 45).reached = true := by
    intro wp hwp
    obtain ⟨k, _, _, _, h5⟩ := reach_position_45_first_hit (atPos wp) (h wp hwp)
    rw [h5]
  have hrun := run_mission_aux_all_reached atPos mission_positions hre
  rw [test_posctrl_mission, hrun]
  have hid : (Prod.fst ∘ fun wp => (wp, reach_position (atPos wp) (fun _ => true) 45)) =
      (id : ℚ × ℚ × ℚ → ℚ × ℚ × ℚ) := rfl
  refine ⟨rfl, by simp only [List.map_map]; rw [hid, List.map_id], ?_⟩
  intro p hp
  simp only [List.mem_map] at hp
  obtain ⟨wp, hwp, rfl⟩ := hp
  obtain ⟨k, _, hk2, hk3, hk5⟩ := reach_position_45_first_hit (atPos wp) (h wp hwp)
  exact ⟨k, by rw [hk5], hk2, hk3⟩

/-- Witness for C8: a vehicle that converges on the first poll everywhere. -/
theorem c8_witness :
    (∀ wp ∈ mission_positions, ∃ j, j < 90 ∧
      (fun (_ : ℚ × ℚ × ℚ) (_ : ℕ) => true) wp j = true) ∧
    (test_posctrl_mission (fun _ _ => true)).2 = true ∧
    (test_posctrl_mission (fun _ _ => true)).1.map Prod.fst = mission_positions := by
  have hh : ∀ wp ∈ mission_positions, ∃ j, j < 90 ∧
      (fun (_ : ℚ × ℚ × ℚ) (_ : ℕ) => true) wp j = true := by
    intro wp _
    exact ⟨0, by norm_num, rfl⟩
  have hc := c8_mission_strict_order (fun _ _ => true) hh
  exact ⟨hh, hc.1, hc.2.1⟩

/-- Witness for C10: already at the target, timeout 45. -/
theorem c10_witness :
    ((fun _ : ℕ => true) 0 = true ∧ (0 : ℤ) < 45) ∧
      reach_position (fun _ => true) (fun _ => true) 45 = ⟨true, 1, 0, some 0, none⟩ ∧
      reported_seconds (reach_position (fun _ => true) (fun _ => true) 45) = some 0 :=
  ⟨⟨rfl, by norm_num⟩, c10_immediate_convergence (fun _ => true) (fun _ => true) 45 rfl (by norm_num)⟩

end UavOffboardPosCtrl
